import Mathlib

/-!
Verification development for the BizBuySell scraping / notification system
(`main.py`, `listing_detail_scraper.py`, `mailchimp_notifier.py`,
`helpers/actions.py`).  Each Python function that the checked properties
depend on is embedded as an executable Lean definition; machine-level
details (Mongo, Selenium, HTTP) are represented by explicit data passed to
those definitions.
-/

namespace BizBuySell

/-- Python truthiness of an optional string (`None` and the empty string
are falsy, every other string is truthy). -/
def pyTruthy : Option String → Bool
  | none => false
  | some s => !s.isEmpty

/-! ## MD5 (`hashlib.md5`), used by `_create_listings_hash` -/

/-- UTF-8 encoding of one character, as byte values (`str.encode()`). -/
def utf8EncodeChar (c : Char) : List Nat :=
  let n := c.toNat
  if n < 0x80 then [n]
  else if n < 0x800 then
    [0xC0 ||| (n >>> 6), 0x80 ||| (n &&& 0x3F)]
  else if n < 0x10000 then
    [0xE0 ||| (n >>> 12), 0x80 ||| ((n >>> 6) &&& 0x3F), 0x80 ||| (n &&& 0x3F)]
  else
    [0xF0 ||| (n >>> 18), 0x80 ||| ((n >>> 12) &&& 0x3F),
     0x80 ||| ((n >>> 6) &&& 0x3F), 0x80 ||| (n &&& 0x3F)]

/-- UTF-8 encoding of a string (`str.encode()`). -/
def utf8Bytes (s : String) : List Nat :=
  s.data.foldr (fun c acc => utf8EncodeChar c ++ acc) []

/-- 32-bit left rotation. -/
def rotl32 (x s : Nat) : Nat :=
  (((x <<< s) % 4294967296) ||| (x >>> (32 - s)))

/-- MD5 per-operation constants `K` (floor(2^32 * abs(sin(i+1)))). -/
def md5K : List Nat :=
  [0xd76aa478, 0xe8c7b756, 0x242070db, 0xc1bdceee, 0xf57c0faf, 0x4787c62a,
   0xa8304613, 0xfd469501, 0x698098d8, 0x8b44f7af, 0xffff5bb1, 0x895cd7be,
   0x6b901122, 0xfd987193, 0xa679438e, 0x49b40821, 0xf61e2562, 0xc040b340,
   0x265e5a51, 0xe9b6c7aa, 0xd62f105d, 0x02441453, 0xd8a1e681, 0xe7d3fbc8,
   0x21e1cde6, 0xc33707d6, 0xf4d50d87, 0x455a14ed, 0xa9e3e905, 0xfcefa3f8,
   0x676f02d9, 0x8d2a4c8a, 0xfffa3942, 0x8771f681, 0x6d9d6122, 0xfde5380c,
   0xa4beea44, 0x4bdecfa9, 0xf6bb4b60, 0xbebfbc70, 0x289b7ec6, 0xeaa127fa,
   0xd4ef3085, 0x04881d05, 0xd9d4d039, 0xe6db99e5, 0x1fa27cf8, 0xc4ac5665,
   0xf4292244, 0x432aff97, 0xab9423a7, 0xfc93a039, 0x655b59c3, 0x8f0ccc92,
   0xffeff47d, 0x85845dd1, 0x6fa87e4f, 0xfe2ce6e0, 0xa3014314, 0x4e0811a1,
   0xf7537e82, 0xbd3af235, 0x2ad7d2bb, 0xeb86d391]

/-- MD5 per-round shift amounts. -/
def md5S : List Nat :=
  [7, 12, 17, 22, 7, 12, 17, 22, 7, 12, 17, 22, 7, 12, 17, 22,
   5, 9, 14, 20, 5, 9, 14, 20, 5, 9, 14, 20, 5, 9, 14, 20,
   4, 11, 16, 23, 4, 11, 16, 23, 4, 11, 16, 23, 4, 11, 16, 23,
   6, 10, 15, 21, 6, 10, 15, 21, 6, 10, 15, 21, 6, 10, 15, 21]

/-- Group little-endian bytes into 32-bit words. -/
def toWordsLE : List Nat → List Nat
  | b0 :: b1 :: b2 :: b3 :: rest =>
      (b0 + 256 * b1 + 65536 * b2 + 16777216 * b3) :: toWordsLE rest
  | _ => []

/-- MD5 message padding: append 0x80, zero bytes to 56 mod 64, then the
64-bit little-endian bit length. -/
def md5Pad (msg : List Nat) : List Nat :=
  let len := msg.length
  let zeros := (120 - ((len + 1) % 64)) % 64
  let bitLen := (len * 8) % 18446744073709551616
  msg ++ [0x80] ++ List.replicate zeros 0 ++
    (List.range 8).map (fun i => (bitLen >>> (8 * i)) % 256)

/-- One of the 64 MD5 operations on state (a, b, c, d). -/
def md5Round (M : List Nat) (st : Nat × Nat × Nat × Nat) (i : Nat) :
    Nat × Nat × Nat × Nat :=
  let (a, b, c, d) := st
  let fg : Nat × Nat :=
    if i < 16 then ((b &&& c) ||| ((b ^^^ 0xFFFFFFFF) &&& d), i)
    else if i < 32 then ((d &&& b) ||| ((d ^^^ 0xFFFFFFFF) &&& c), (5 * i + 1) % 16)
    else if i < 48 then (b ^^^ c ^^^ d, (3 * i + 5) % 16)
    else (c ^^^ (b ||| (d ^^^ 0xFFFFFFFF)), (7 * i) % 16)
  let f := (fg.1 + a + md5K.getD i 0 + M.getD fg.2 0) % 4294967296
  (d, (b + rotl32 f (md5S.getD i 0)) % 4294967296, b, c)

/-- Process one 64-byte chunk. -/
def md5Chunk (st : Nat × Nat × Nat × Nat) (chunk : List Nat) :
    Nat × Nat × Nat × Nat :=
  let M := toWordsLE chunk
  let r := (List.range 64).foldl (md5Round M) st
  ((st.1 + r.1) % 4294967296, (st.2.1 + r.2.1) % 4294967296,
   (st.2.2.1 + r.2.2.1) % 4294967296, (st.2.2.2 + r.2.2.2) % 4294967296)

/-- Split a byte list into chunks of 64. -/
def chunks64 : List Nat → List (List Nat)
  | [] => []
  | a :: t => List.take 64 (a :: t) :: chunks64 (List.drop 63 t)
termination_by l => l.length
decreasing_by
  simp only [List.length_drop, List.length_cons]
  omega

/-- One hex digit (lowercase). -/
def hexDigit (n : Nat) : Char :=
  if n < 10 then Char.ofNat (48 + n) else Char.ofNat (87 + n)

/-- Two-digit lowercase hex of a byte. -/
def byteHex (b : Nat) : String :=
  String.mk [hexDigit (b / 16), hexDigit (b % 16)]

/-- Little-endian hex of a 32-bit word (4 bytes). -/
def wordHexLE (w : Nat) : String :=
  String.join ((List.range 4).map (fun i => byteHex ((w >>> (8 * i)) % 256)))

/-- `hashlib.md5(s.encode()).hexdigest()`. -/
def md5hex (s : String) : String :=
  let msg := md5Pad (utf8Bytes s)
  let r := (chunks64 msg).foldl md5Chunk
    (0x67452301, 0xefcdab89, 0x98badcfe, 0x10325476)
  String.join ([r.1, r.2.1, r.2.2.1, r.2.2.2].map wordHexLE)

/-! ## Kernel-friendly models of the Python string primitives used by the
code (`str.split`, `str.strip`, `str.lower`, `str.join`, slicing).  They
are structurally recursive so that concrete inputs evaluate by `decide`. -/

/-- Python `s.split(",")`: split at every comma, keeping empty pieces. -/
def splitCommaAux : List Char → List Char → List String
  | [], cur => [String.mk cur.reverse]
  | c :: rest, cur =>
      if c = ',' then String.mk cur.reverse :: splitCommaAux rest []
      else splitCommaAux rest (c :: cur)

/-- Python `s.split(",")` on a string. -/
def splitComma (s : String) : List String := splitCommaAux s.data []

/-- Python `s.strip()`: remove leading and trailing whitespace. -/
def pyStrip (s : String) : String :=
  String.mk (((s.data.dropWhile Char.isWhitespace).reverse.dropWhile
    Char.isWhitespace).reverse)

/-- Python `s.lower()` (ASCII case folding, which covers the data the
program compares). -/
def pyLower (s : String) : String := String.mk (s.data.map Char.toLower)

/-- Python `s.replace("\xa0", "")`: remove every non-breaking space. -/
def removeNbsp (s : String) : String :=
  String.mk (s.data.filter (fun c => c ≠ '\u00A0'))

/-- Python `"|".join(xs)`. -/
def joinPipe : List String → String
  | [] => ""
  | [x] => x
  | x :: y :: xs => x ++ "|" ++ joinPipe (y :: xs)

/-- Python slicing `s[:n]`. -/
def strTake (s : String) (n : Nat) : String := String.mk (s.data.take n)

/-- Code-point lexicographic comparison of character lists (the order
Python uses to compare strings). -/
def lexLeChars : List Char → List Char → Bool
  | [], _ => true
  | _ :: _, [] => false
  | a :: as, b :: bs =>
      if a.toNat < b.toNat then true
      else if b.toNat < a.toNat then false
      else lexLeChars as bs

/-- Python string comparison `a <= b`. -/
def pyStrLe (a b : String) : Bool := lexLeChars a.data b.data

/-- Python `sorted(xs)` on strings: the unique ordering of the multiset by
`pyStrLe` (a total antisymmetric order, so every sorting algorithm,
insertion sort included, computes the same list as Python sorted). -/
def pySorted (l : List String) : List String :=
  l.insertionSort (fun a b => pyStrLe a b = true)

/-! ## `mailchimp_notifier.py`: matching, hashing, grouping -/

/-- The notifier view of one listing dict, with `asking_price` holding the
result of `_normalize_price` (a parsed numeric value or `None`), `category`
the list stored by the scraper, and missing `state`/`city`/`title` keys
modelled by the default `""` that `listing.get` supplies. -/
structure NListing where
  asking_price : Option Rat
  category : List String
  state : String
  city : String
  url : Option String
  title : String
deriving DecidableEq, Repr

/-- `_normalize_list_field`: falsy input gives `[]`; otherwise remove
non-breaking spaces, split on commas, keep the stripped form of every
piece that is non-empty before and after stripping. -/
def normalize_list_field (field_value : Option String) : List String :=
  match field_value with
  | none => []
  | some s =>
    if s.isEmpty then []
    else (splitComma (removeNbsp s)).filterMap (fun item =>
      if !item.isEmpty && !(pyStrip item).isEmpty then some (pyStrip item)
      else none)

/-- The guard `(min_price is not None and price is not None) and
(price < min_price)` of `_listing_matches_subscriber`. -/
def price_below_min (min_price price : Option Rat) : Bool :=
  match min_price, price with
  | some m, some p => decide (p < m)
  | _, _ => false

/-- The guard `(max_price is not None and price is not None) and
(price > max_price)` of `_listing_matches_subscriber`. -/
def price_above_max (max_price price : Option Rat) : Bool :=
  match max_price, price with
  | some m, some p => decide (p > m)
  | _, _ => false

/-- `set(str(cat).lower().strip() for cat in listing_categories if cat)`,
kept as a list (only membership is ever used). -/
def listing_industries (listing : NListing) : List String :=
  (listing.category.filter (fun c => !c.isEmpty)).map
    (fun c => pyStrip (pyLower c))

/-- Python `set(s)` of a string: the set of its single-character strings
(this is what `set(listing.get("state", "").lower())` builds). -/
def charStrings (s : String) : List String :=
  s.data.map (fun c => String.mk [c])

/-- `_listing_matches_subscriber`, translated check for check. -/
def listing_matches_subscriber (listing : NListing)
    (min_price max_price : Option Rat)
    (subscriber_industries subscriber_states subscriber_cities : List String) :
    Bool :=
  let price := listing.asking_price
  if price_below_min min_price price then false
  else if price_above_max max_price price then false
  else if !subscriber_industries.isEmpty &&
      !(subscriber_industries.any (fun s => (listing_industries listing).contains s)) then
    false
  else if !subscriber_states.isEmpty &&
      !(subscriber_states.any (fun s =>
        (charStrings (pyLower listing.state)).contains s)) then
    false
  else if !subscriber_cities.isEmpty &&
      !(subscriber_cities.any (fun s =>
        (charStrings (pyLower listing.city)).contains s)) then
    false
  else true

/-- The merge-field map of one subscriber (raw comma-separated strings,
optional numeric bounds). -/
structure MergeFields where
  dpr_min : Option Rat
  dpr_max : Option Rat
  industries : Option String
  states : Option String
  cities : Option String
deriving DecidableEq, Repr

/-- One member dict from the audience list; `merge_fields = none` models a
missing or empty (falsy) merge-field dict. -/
structure Subscriber where
  email_address : Option String
  merge_fields : Option MergeFields
deriving DecidableEq, Repr

/-- Python dict assignment `d[k] = v` on an insertion-ordered dict. -/
def dictSet (d : List (String × List NListing)) (k : String)
    (v : List NListing) : List (String × List NListing) :=
  if d.any (fun p => p.1 == k) then
    d.map (fun p => if p.1 == k then (k, v) else p)
  else d ++ [(k, v)]

/-- One iteration of the subscriber loop of `match_subscribers_to_listings`. -/
def match_step (listings : List NListing)
    (ms : List (String × List NListing)) (sub : Subscriber) :
    List (String × List NListing) :=
  match sub.email_address with
  | none => ms
  | some email =>
    if email.isEmpty then ms
    else
      match sub.merge_fields with
      | none => ms
      | some mf =>
        let subscriber_industries :=
          (normalize_list_field mf.industries).map pyLower
        let subscriber_states := (normalize_list_field mf.states).map pyLower
        let subscriber_cities := (normalize_list_field mf.cities).map pyLower
        let matched_listings := listings.filter (fun l =>
          listing_matches_subscriber l mf.dpr_min mf.dpr_max
            subscriber_industries subscriber_states subscriber_cities)
        if matched_listings.isEmpty then ms
        else dictSet ms email matched_listings

/-- `match_subscribers_to_listings`: the email-to-matched-listings dict. -/
def match_subscribers_to_listings (subs : List Subscriber)
    (listings : List NListing) : List (String × List NListing) :=
  subs.foldl (match_step listings) []

/-- The identifier `listing.get("url") or listing.get("title", "")` used by
`_create_listings_hash`. -/
def listingIdent (l : NListing) : String :=
  match l.url with
  | some u => if u.isEmpty then l.title else u
  | none => l.title

/-- `_create_listings_hash`: md5 of the sorted identifiers joined with a
pipe, truncated to the first 8 hex characters. -/
def create_listings_hash (listings : List NListing) : String :=
  strTake (md5hex (joinPipe (pySorted (listings.map listingIdent)))) 8

/-- One group: (listings hash, (emails, the matched listings stored when
the group was created)). -/
abbrev MatchGroup := String × List String × List NListing

/-- One iteration of the grouping loop of `group_subscribers_by_matches`. -/
def group_step (groups : List MatchGroup) (p : String × List NListing) :
    List MatchGroup :=
  let h := create_listings_hash p.2
  if groups.any (fun g => g.1 == h) then
    groups.map (fun g => if g.1 == h then (g.1, g.2.1 ++ [p.1], g.2.2) else g)
  else groups ++ [(h, ([p.1], p.2))]

/-- `group_subscribers_by_matches`: fold the match dict into groups keyed
by the listings hash (insertion-ordered dict). -/
def group_subscribers_by_matches (ms : List (String × List NListing)) :
    List MatchGroup :=
  ms.foldl group_step []

/-! ## `main.py` step 1.5: the freshness filter against the store -/

/-- One candidate dict produced by URL discovery
(`{title, url, listing_id}`); absent keys are `none`. -/
structure Candidate where
  title : String
  url : Option String
  listing_id : Option String
deriving DecidableEq, Repr

/-- The projection of one stored document that the filter query reads. -/
structure StoredDoc where
  url : Option String
  listing_id : Option String
deriving DecidableEq, Repr

/-- `url_list = [u.get("url") for u in listing_urls if u.get("url")]`. -/
def url_list (listing_urls : List Candidate) : List String :=
  listing_urls.filterMap (fun u =>
    match u.url with
    | some s => if s.isEmpty then none else some s
    | none => none)

/-- `set(d.get("url") for d in col.find({url: {$in: url_list}}))`: the urls
of the stored documents whose url field is one of the candidate urls. -/
def existing_urls (store : List StoredDoc) (urls : List String) : List String :=
  (store.filter (fun d =>
    match d.url with
    | some s => urls.contains s
    | none => false)).filterMap (fun d => d.url)

/-- `filtered_urls = [u for u in listing_urls if u.get("url") not in existing]`
(the whole of step 1.5 of `main`). -/
def freshness_filter (listing_urls : List Candidate) (store : List StoredDoc) :
    List Candidate :=
  let existing := existing_urls store (url_list listing_urls)
  listing_urls.filter (fun u =>
    match u.url with
    | some s => !existing.contains s
    | none => true)

/-- Modelled from the spec (sections 4.1 and 8): the identifying key of a
candidate is externalId when present, otherwise url. -/
def spec_candidate_key (c : Candidate) : String :=
  match c.listing_id with
  | some i => if i.isEmpty then (c.url.getD "") else i
  | none => c.url.getD ""

/-- Modelled from the spec: the identifying keys already persisted. -/
def spec_stored_keys (store : List StoredDoc) : List String :=
  store.map (fun d =>
    match d.listing_id with
    | some i => if i.isEmpty then (d.url.getD "") else i
    | none => d.url.getD "")

/-- Modelled from the spec (section 8):
`freshnessFilter(C, K) = [c ∈ C : key(c) ∉ K]`. -/
def spec_freshnessFilter (cands : List Candidate) (store : List StoredDoc) :
    List Candidate :=
  cands.filter (fun c => !(spec_stored_keys store).contains (spec_candidate_key c))

/-! ## `listing_detail_scraper.py`: enrichment, extraction, retry loop -/

/-- The 26 entries of `self.categories` (the controlled vocabulary). -/
def CATEGORIES : List String :=
  ["Agriculture", "Automotive", "Boat", "Beauty", "Personal Care",
   "Building", "Construction", "Communication", "Media", "Education",
   "Children", "Entertainment", "Recreation", "Financial Services",
   "Health Care", "Fitness", "Manufacturing", "Non-classifiable Establishments",
   "Online", "Technology", "Pet Services", "Restaurants", "Food",
   "Retail", "Service Businesses", "Real Estate"]

/-- Outcome of one call to the classification service for city/state: the
call raises (service error), returns a non-JSON body, or returns a parsed
JSON object with optional city/state keys. -/
inductive AILocResult where
  | svcError
  | badJson (raw : String)
  | parsed (city state : Option String)
deriving DecidableEq, Repr

/-- Whether the city/state response is the malformed (non-JSON) one. -/
def aiLocIsBadJson : AILocResult → Bool
  | .badJson _ => true
  | _ => false

/-- `ai_extract_city_and_state`: a service error returns the empty dict
(`return {}` in the outer handler, modelled as `some (none, none)`); a
malformed body is logged and then the function falls off its end, returning
Python `None` (modelled as `none`); a parsed body is returned as is. -/
def ai_extract_city_and_state : AILocResult → Option (Option String × Option String)
  | .svcError => some (none, none)
  | .badJson _ => none
  | .parsed c s => some (c, s)

/-- Outcome of one call to the classification service for categories. -/
inductive AICatResult where
  | svcError
  | badJson (raw : String)
  | parsed (cats : List String)
deriving DecidableEq, Repr

/-- `categorize_listing`: keep only categories from the controlled
vocabulary; with zero survivors, or on any service/parse failure, fall back
to `[category] if category else []`. -/
def categorize_listing (category : String) (r : AICatResult) : List String :=
  let fallback := if category.isEmpty then [] else [category]
  match r with
  | .svcError => fallback
  | .badJson _ => fallback
  | .parsed cats =>
    let valid := cats.filter (fun c => CATEGORIES.contains c)
    if valid.isEmpty then fallback else valid

/-- One rendered page plus the service responses observed during the
attempt that navigated to it.  `flSpanText` is the stripped text of the
first `span.f-l` element (the content marker, which is also the location
element), `none` when no such element exists. -/
structure Page where
  navError : Bool
  accessDenied : Bool
  flSpanText : Option String
  bidMarker : Bool
  askingPrice : Option String
  jsonTitle : Option String
  jsonDescription : Option String
  jsonCategory : Option String
  jsonListingId : Option String
  jsonBrokerName : Option String
  jsonBrokerProfile : Option String
  brokerNumber : String
  grossRevenue : String
  cashflow : String
  aiLoc : AILocResult
  aiCat : AICatResult
  now : String
deriving DecidableEq, Repr

/-- `_extract_location`: text of the first `span.f-l`, else `""`. -/
def extract_location (p : Page) : String := p.flSpanText.getD ""

/-- One finalized record dict (`detail_data`), as persisted. -/
structure DetailRecord where
  title : String
  city : String
  state : String
  asking_price : Option String
  gross_revenue : String
  established : Option String
  cashflow : String
  description : String
  url : String
  category : List String
  original_category : String
  listing_id : String
  broker_name : String
  broker_profile : String
  broker_number : String
  scraped_date : String
deriving DecidableEq, Repr

/-- `_extract_detail_data`: accept when the JSON-LD asking price is truthy
and the location is non-empty; then enrich.  A Python `None` from
`ai_extract_city_and_state` makes `location.get` raise, the handler
catches it and the function returns `None`. -/
def extract_detail_data (p : Page) (url_data : Candidate) : Option DetailRecord :=
  let location := extract_location p
  if pyTruthy p.askingPrice && !location.isEmpty then
    let original_category := p.jsonCategory.getD ""
    let ai_categories := categorize_listing original_category p.aiCat
    match ai_extract_city_and_state p.aiLoc with
    | none => none
    | some loc =>
      some {
        title := p.jsonTitle.getD url_data.title
        city := loc.1.getD ""
        state := loc.2.getD ""
        asking_price := p.askingPrice
        gross_revenue := p.grossRevenue
        established := none
        cashflow := p.cashflow
        description := p.jsonDescription.getD ""
        url := url_data.url.getD ""
        category := ai_categories
        original_category := original_category
        listing_id := p.jsonListingId.getD (url_data.listing_id.getD "")
        broker_name := p.jsonBrokerName.getD ""
        broker_profile := p.jsonBrokerProfile.getD ""
        broker_number := p.brokerNumber
        scraped_date := p.now }
  else none

/-- What one iteration of the retry loop does: `finish r` leaves the loop
returning `r` to the caller, `retry` resets the session and continues. -/
inductive AttemptResult where
  | finish (r : Option DetailRecord)
  | retry
deriving DecidableEq, Repr

/-- One iteration of the `while trials <= max_trials` body: a navigation
exception or an access-denied signature resets and retries; a truthy
extraction returns it; a falsy extraction returns it (that is, `None`)
when the starting-bid marker is present, else resets and retries. -/
def attempt (p : Page) (url_data : Candidate) : AttemptResult :=
  if p.navError then .retry
  else if p.accessDenied then .retry
  else
    match extract_detail_data p url_data with
    | some r => .finish (some r)
    | none => if p.bidMarker then .finish none else .retry

/-- The retry loop from the current trial count on; `env t` is the page
observed by trial `t`.  Falling past `max_trials` returns `None`. -/
def scrape_from (url_data : Candidate) (env : Nat → Page)
    (trials maxTrials : Nat) : Option DetailRecord :=
  if _h : trials ≤ maxTrials then
    match attempt (env trials) url_data with
    | .finish r => r
    | .retry => scrape_from url_data env (trials + 1) maxTrials
  else none
termination_by maxTrials + 1 - trials
decreasing_by omega

/-- `_scrape_listing_detail_selenium`: guard on a missing url and on the
recently-scraped set, then run at most `max_trials = 2` attempts. -/
def scrape_listing_detail_selenium (url_data : Candidate)
    (recent : List String) (env : Nat → Page) : Option DetailRecord :=
  let url := url_data.url.getD ""
  if url.isEmpty then none
  else if recent.contains url then none
  else scrape_from url_data env 1 2

/-! ## `_save_details_to_mongo`: batched upsert -/

/-- The filter of one `UpdateOne`:
`{listing_id: ...} if d.get("listing_id") else {url: ...}`. -/
inductive MongoKey where
  | byListingId (v : String)
  | byUrl (v : String)
deriving DecidableEq, Repr

/-- The upsert key of a record. -/
def upsert_key (d : DetailRecord) : MongoKey :=
  if !d.listing_id.isEmpty then .byListingId d.listing_id else .byUrl d.url

/-- Whether a stored document matches an `UpdateOne` filter. -/
def key_matches (k : MongoKey) (doc : DetailRecord) : Bool :=
  match k with
  | .byListingId v => doc.listing_id == v
  | .byUrl v => doc.url == v

/-- `UpdateOne(key, {$set: d}, upsert=True)` on a store: replace the first
matching document by `d` (the `$set` covers every field), counting it as
modified only when it actually changes; with no match, insert `d`.
Returns (store, upserted count, modified count). -/
def update_one : List DetailRecord → DetailRecord →
    List DetailRecord × Nat × Nat
  | [], d => ([d], 1, 0)
  | doc :: rest, d =>
    if key_matches (upsert_key d) doc then
      (d :: rest, 0, if doc = d then 0 else 1)
    else
      let r := update_one rest d
      (doc :: r.1, r.2.1, r.2.2)

/-- `_save_details_to_mongo`: one `bulk_write` of all the `UpdateOne` ops,
returning the new store and `len(upserted_ids) + modified_count`. -/
def save_details_to_mongo (store : List DetailRecord)
    (details : List DetailRecord) : List DetailRecord × Nat :=
  if details.isEmpty then (store, 0)
  else
    let r := details.foldl (fun acc d =>
      let u := update_one acc.1 d
      (u.1, acc.2.1 + u.2.1, acc.2.2 + u.2.2)) (store, 0, 0)
    (r.1, r.2.1 + r.2.2)

/-! ## `_process_urls_threaded` / `process_urls_directly` -/

/-- The dynamic result type of `_process_urls_threaded`: the Python
function returns either the integer `0` or the list `all_details`. -/
inductive PoolResult where
  | count (n : Nat)
  | records (l : List DetailRecord)
deriving DecidableEq, Repr

/-- `_process_urls_threaded` given the per-candidate worker outcomes
(`none` covers both a falsy `future.result()` and a raised exception):
collect the truthy details; with none of them, return the integer `0`;
otherwise save the batch to the store and return the list. -/
def process_urls_threaded (store : List DetailRecord)
    (outcomes : List (Option DetailRecord)) : PoolResult × List DetailRecord :=
  let all_details := outcomes.filterMap id
  if all_details.isEmpty then (.count 0, store)
  else (.records all_details, (save_details_to_mongo store all_details).1)

/-- `process_urls_directly`: clears the recently-scraped set and delegates
to `_process_urls_threaded`. -/
def process_urls_directly (store : List DetailRecord)
    (outcomes : List (Option DetailRecord)) : PoolResult × List DetailRecord :=
  process_urls_threaded store outcomes

/-! ## Concrete fixtures used by the evaluation theorems -/

/-- A listing in Nevada (as the notifier sees it). -/
def nvListing : NListing :=
  { asking_price := none, category := [], state := "Nevada",
    city := "Las Vegas", url := some "https://example.com/nv-1",
    title := "NV Business" }

/-- Merge fields specifying only the state set, as the raw string
`"Nevada"`. -/
def mfNevada : MergeFields :=
  { dpr_min := none, dpr_max := none, industries := none,
    states := some "Nevada", cities := none }

/-- Merge fields with no constraint at all. -/
def mfEmpty : MergeFields :=
  { dpr_min := none, dpr_max := none, industries := none,
    states := none, cities := none }

/-- Subscriber with states restricted to Nevada. -/
def subNevada : Subscriber :=
  { email_address := some "a@example.com", merge_fields := some mfNevada }

/-- Subscriber with no constraints. -/
def subAny : Subscriber :=
  { email_address := some "b@example.com", merge_fields := some mfEmpty }

/-- A candidate rediscovered under a new url but with an externalId that
is already stored. -/
def movedCand : Candidate :=
  { title := "Biz", url := some "https://example.com/new",
    listing_id := some "123" }

/-- First record persisted in a run (Nevada restaurant). -/
def recA : DetailRecord :=
  { title := "NV Business", city := "las vegas", state := "nevada",
    asking_price := some "500000", gross_revenue := "", established := none,
    cashflow := "", description := "", url := "https://example.com/nv-1",
    category := ["Restaurants"], original_category := "Restaurant",
    listing_id := "123", broker_name := "", broker_profile := "",
    broker_number := "", scraped_date := "2026-01-01 00:00:00" }

/-- The same listing re-scraped one day later. -/
def recB : DetailRecord := { recA with scraped_date := "2026-01-02 00:00:00" }

/-- A page showing the access-denied block signature. -/
def pageDenied : Page :=
  { navError := false, accessDenied := true, flSpanText := none,
    bidMarker := false, askingPrice := none, jsonTitle := none,
    jsonDescription := none, jsonCategory := none, jsonListingId := none,
    jsonBrokerName := none, jsonBrokerProfile := none, brokerNumber := "",
    grossRevenue := "", cashflow := "",
    aiLoc := AILocResult.parsed none none, aiCat := AICatResult.svcError,
    now := "2026-01-01 00:00:00" }

/-- The candidate dict handed to the detail scraper for the fixtures. -/
def candX : Candidate :=
  { title := "NV Business", url := some "https://example.com/nv-1",
    listing_id := some "123" }

/-- A fully loaded page (price and location present) whose city/state
classification response is not valid JSON. -/
def pageBadAI : Page :=
  { navError := false, accessDenied := false,
    flSpanText := some "Las Vegas, NV", bidMarker := false,
    askingPrice := some "500000", jsonTitle := some "NV Business",
    jsonDescription := some "A business.", jsonCategory := some "Restaurant",
    jsonListingId := some "123", jsonBrokerName := some "Pat Broker",
    jsonBrokerProfile := some "https://example.com/broker",
    brokerNumber := "555-0100", grossRevenue := "$1,000,000",
    cashflow := "$200,000", aiLoc := AILocResult.badJson "oops",
    aiCat := AICatResult.svcError, now := "2026-01-01 00:00:00" }

/-- The same page when the city/state call raises instead (the service
error path, which returns the empty dict). -/
def pageSvcErr : Page := { pageBadAI with aiLoc := AILocResult.svcError }

/-- A listing whose url contains the join separator. -/
def pipeListing : NListing :=
  { asking_price := none, category := [], state := "", city := "",
    url := some "a|b", title := "" }

/-- A listing with url `a`. -/
def aListing : NListing :=
  { asking_price := none, category := [], state := "", city := "",
    url := some "a", title := "" }

/-- A listing with url `b`. -/
def bListing : NListing :=
  { asking_price := none, category := [], state := "", city := "",
    url := some "b", title := "" }

/-- The stored document for the same externalId under the old url. -/
def movedStored : StoredDoc :=
  { url := some "https://example.com/old", listing_id := some "123" }

/-! ## Theorems -/

/-- C2: evaluation of the code at the failing input.  The claim (and the
spec, scenario D) says a subscriber with states containing "nevada"
matches a listing whose state is "Nevada", so that this subscriber and an
unconstrained one land in the same group.  The code builds
`set(listing.get("state", "").lower())`, the set of single-character
strings of the state, and intersects the subscriber set with it, so the
constrained subscriber matches nothing: only the unconstrained subscriber
is matched, and the single produced group holds one email, not two. -/
theorem state_matching_uses_char_set :
    listing_matches_subscriber nvListing none none [] ["nevada"] [] = false ∧
    match_subscribers_to_listings [subNevada, subAny] [nvListing] =
      [("b@example.com", [nvListing])] ∧
    (group_subscribers_by_matches
      (match_subscribers_to_listings [subNevada, subAny] [nvListing])).map
        (fun g => g.2.1) = [["b@example.com"]] := by
  refine ⟨by decide, by decide, ?_⟩
  decide

/-- C9: `_process_urls_threaded` (and hence `process_urls_directly`)
returns the integer `0` when every worker outcome is empty, and whenever
it returns a list at all, that list is non-empty. -/
theorem process_urls_result_shape (store : List DetailRecord)
    (outcomes : List (Option DetailRecord)) :
    (outcomes.all (fun o => o.isNone) = true →
      (process_urls_directly store outcomes).1 = PoolResult.count 0) ∧
    (∀ l, (process_urls_directly store outcomes).1 = PoolResult.records l →
      l ≠ []) := by
  constructor
  · intro h
    have hnil : outcomes.filterMap id = [] := by
      rw [List.filterMap_eq_nil_iff]
      intro o ho
      exact Option.isNone_iff_eq_none.mp (List.all_eq_true.mp h o ho)
    simp [process_urls_directly, process_urls_threaded, hnil]
  · intro l hl
    unfold process_urls_directly process_urls_threaded at hl
    by_cases he : (outcomes.filterMap id).isEmpty
    · simp [he] at hl
    · simp [he] at hl
      intro hnil
      rw [← hl] at hnil
      simp [hnil] at he

/-- C9 witness: with the single failed outcome, the pool returns the
integer `0`. -/
theorem process_urls_result_shape_witness :
    (process_urls_directly [] [none]).1 = PoolResult.count 0 :=
  (process_urls_result_shape [] [none]).1 (by decide)

/-- C10: a subscriber with no email address (or a falsy one), or with a
missing/empty merge-field dict, is skipped by
`match_subscribers_to_listings`: the match dict, hence every group and
campaign, is the same as if the subscriber were absent — even though the
matching rule itself accepts every listing for a fully unconstrained
profile. -/
theorem skipped_subscriber_invisible (listings : List NListing)
    (rest : List Subscriber) (sub : Subscriber) (l : NListing)
    (h : pyTruthy sub.email_address = false ∨ sub.merge_fields = none) :
    match_subscribers_to_listings (sub :: rest) listings =
      match_subscribers_to_listings rest listings ∧
    group_subscribers_by_matches
        (match_subscribers_to_listings (sub :: rest) listings) =
      group_subscribers_by_matches
        (match_subscribers_to_listings rest listings) ∧
    listing_matches_subscriber l none none [] [] [] = true := by
  have hstep : match_step listings [] sub = [] := by
    unfold match_step
    rcases h with h | h
    · cases he : sub.email_address with
      | none => rfl
      | some e =>
        rw [he] at h
        simp only [pyTruthy, Bool.not_eq_false'] at h
        simp [h]
    · cases he : sub.email_address with
      | none => rfl
      | some e => simp [h]
  have hmain : match_subscribers_to_listings (sub :: rest) listings =
      match_subscribers_to_listings rest listings := by
    unfold match_subscribers_to_listings
    rw [List.foldl_cons, hstep]
  have h1 : price_below_min none l.asking_price = false := by
    cases l.asking_price <;> rfl
  have h2 : price_above_max none l.asking_price = false := by
    cases l.asking_price <;> rfl
  refine ⟨hmain, by rw [hmain], ?_⟩
  unfold listing_matches_subscriber
  simp [h1, h2]

/-- C10 witness: a subscriber with no email address is invisible, and the
unconstrained matching rule accepts the Nevada listing. -/
theorem skipped_subscriber_invisible_witness :
    match_subscribers_to_listings [⟨none, none⟩] [nvListing] =
      match_subscribers_to_listings [] [nvListing] ∧
    group_subscribers_by_matches
        (match_subscribers_to_listings [⟨none, none⟩] [nvListing]) =
      group_subscribers_by_matches
        (match_subscribers_to_listings [] [nvListing]) ∧
    listing_matches_subscriber nvListing none none [] [] [] = true :=
  skipped_subscriber_invisible [nvListing] [] ⟨none, none⟩ nvListing
    (Or.inl (by decide))

/-- C1 counterexample: the claim says a candidate whose externalId is
already stored is removed even when its url differs from the stored one.
The code keeps it: step 1.5 of `main` compares urls only, so the
candidate passes while the spec-side filter (key = externalId else url)
removes it. -/
theorem freshness_filter_ignores_external_id :
    freshness_filter [movedCand] [movedStored] = [movedCand] ∧
    spec_freshnessFilter [movedCand] [movedStored] = [] := ⟨by decide, by decide⟩

/-- Membership in `url_list`: exactly the truthy urls of the candidates. -/
theorem url_list_spec (cands : List Candidate) (s : String) :
    s ∈ url_list cands ↔ ∃ c ∈ cands, c.url = some s ∧ s.isEmpty = false := by
  unfold url_list
  rw [List.mem_filterMap]
  constructor
  · rintro ⟨c, hc, hf⟩
    refine ⟨c, hc, ?_⟩
    cases hcu : c.url with
    | none => rw [hcu] at hf; cases hf
    | some t =>
      rw [hcu] at hf
      cases ht : t.isEmpty with
      | true => simp [ht] at hf
      | false =>
        simp [ht] at hf
        subst hf
        exact ⟨rfl, ht⟩
  · rintro ⟨c, hc, hcu, hs⟩
    exact ⟨c, hc, by rw [hcu]; simp [hs]⟩

/-- Membership in `existing_urls`: stored urls among the queried ones. -/
theorem existing_urls_spec (store : List StoredDoc) (urls : List String)
    (s : String) :
    s ∈ existing_urls store urls ↔ s ∈ urls ∧ ∃ d ∈ store, d.url = some s := by
  unfold existing_urls
  rw [List.mem_filterMap]
  constructor
  · rintro ⟨d, hd, hdu⟩
    rw [List.mem_filter] at hd
    obtain ⟨hdmem, hcond⟩ := hd
    rw [hdu] at hcond
    simp only [List.elem_iff] at hcond
    exact ⟨hcond, d, hdmem, hdu⟩
  · rintro ⟨hs, d, hd, hdu⟩
    refine ⟨d, List.mem_filter.mpr ⟨hd, ?_⟩, hdu⟩
    rw [hdu]
    simpa [List.elem_iff] using hs

/-- C1 (amended): step 1.5 of `main` keys on url alone — it returns
exactly the candidates whose url is not the url of any stored document,
in one batched `$in` lookup; candidates without a truthy url always
pass, and the externalId plays no part. -/
theorem contains_iff_mem (l : List String) (a : String) :
    l.contains a = true ↔ a ∈ l := List.elem_iff

theorem freshness_filter_keys_on_url (cands : List Candidate)
    (store : List StoredDoc) :
    freshness_filter cands store = cands.filter (fun c =>
      !(store.any (fun d => pyTruthy c.url && (d.url == c.url)))) := by
  unfold freshness_filter
  apply List.filter_congr
  intro c hc
  cases hcu : c.url with
  | none => simp [pyTruthy, hcu]
  | some s =>
    cases hs : s.isEmpty with
    | true =>
      have hne : s ∉ existing_urls store (url_list cands) := by
        rw [existing_urls_spec]
        rintro ⟨hsu, -⟩
        rw [url_list_spec] at hsu
        obtain ⟨c2, -, -, hse⟩ := hsu
        rw [hs] at hse
        cases hse
      have h1 : (existing_urls store (url_list cands)).contains s = false := by
        cases hcont : (existing_urls store (url_list cands)).contains s with
        | false => rfl
        | true => exact absurd ((contains_iff_mem _ _).mp hcont) hne
      have h2 : store.any (fun d => pyTruthy (some s) && (d.url == some s)) =
          false := by
        rw [List.any_eq_false]
        intro d hd
        simp [pyTruthy, hs]
      show (!(existing_urls store (url_list cands)).contains s) =
        (!(store.any (fun d => pyTruthy (some s) && (d.url == some s))))
      rw [h1, h2]
    | false =>
      have hmem : s ∈ existing_urls store (url_list cands) ↔
          ∃ d ∈ store, d.url = some s := by
        rw [existing_urls_spec]
        constructor
        · rintro ⟨-, h⟩; exact h
        · intro h
          refine ⟨?_, h⟩
          rw [url_list_spec]
          exact ⟨c, hc, hcu, hs⟩
      have hkey : (existing_urls store (url_list cands)).contains s =
          store.any (fun d => pyTruthy (some s) && (d.url == some s)) := by
        rw [Bool.eq_iff_iff, contains_iff_mem, hmem, List.any_eq_true]
        constructor
        · rintro ⟨d, hd, hdu⟩
          refine ⟨d, hd, ?_⟩
          rw [hdu]
          simp [pyTruthy, hs]
        · rintro ⟨d, hd, hdu⟩
          rw [Bool.and_eq_true] at hdu
          obtain ⟨-, hbeq⟩ := hdu
          exact ⟨d, hd, by simpa using hbeq⟩
      show (!(existing_urls store (url_list cands)).contains s) =
        (!(store.any (fun d => pyTruthy (some s) && (d.url == some s))))
      rw [hkey]

/-- A record always matches its own upsert filter. -/
theorem key_matches_upsert_self (d : DetailRecord) :
    key_matches (upsert_key d) d = true := by
  unfold upsert_key key_matches
  by_cases h : d.listing_id.isEmpty
  · simp [h]
  · simp [h]

/-- `UpdateOne` with a filter matching nothing in the store inserts. -/
theorem update_one_insert (store : List DetailRecord) (d : DetailRecord)
    (h : ∀ doc ∈ store, key_matches (upsert_key d) doc = false) :
    update_one store d = (store ++ [d], 1, 0) := by
  induction store with
  | nil => rfl
  | cons doc rest ih =>
    have hd := h doc (by simp)
    have ih2 := ih (fun x hx => h x (by simp [hx]))
    simp [update_one, hd, ih2]

/-- `UpdateOne` whose filter matches exactly the final record replaces it
and reports one modification (when the record changed). -/
theorem update_one_modify (store : List DetailRecord) (r r2 : DetailRecord)
    (hk : upsert_key r2 = upsert_key r)
    (hnew : ∀ doc ∈ store, key_matches (upsert_key r) doc = false)
    (hne : r ≠ r2) :
    update_one (store ++ [r]) r2 = (store ++ [r2], 0, 1) := by
  induction store with
  | nil =>
    have hm : key_matches (upsert_key r2) r = true := by
      rw [hk]; exact key_matches_upsert_self r
    simp [update_one, hm, hne]
  | cons doc rest ih =>
    have hd : key_matches (upsert_key r2) doc = false := by
      rw [hk]; exact hnew doc (by simp)
    have ih2 := ih (fun x hx => hnew x (by simp [hx]))
    simp [update_one, hd, ih2]

/-- C7: `_save_details_to_mongo` is an idempotent upsert keyed by
listing_id when truthy, else url.  Starting from a store with no document
under the key, persisting `r` inserts it (count 1 = one insert); then
persisting the re-scraped `r2` under the same key replaces it in place
(count 1 = one modification, no duplicate insert), leaving exactly one
document under the key — the later record, carrying its `scraped_date`. -/
theorem mongo_upsert_idempotent (store : List DetailRecord)
    (r r2 : DetailRecord)
    (hk : upsert_key r2 = upsert_key r)
    (hnew : ∀ doc ∈ store, key_matches (upsert_key r) doc = false)
    (hne : r ≠ r2) :
    save_details_to_mongo store [r] = (store ++ [r], 1) ∧
    save_details_to_mongo (store ++ [r]) [r2] = (store ++ [r2], 1) ∧
    (store ++ [r2]).countP (fun doc => key_matches (upsert_key r2) doc) = 1 ∧
    (store ++ [r2]).filter (fun doc => key_matches (upsert_key r2) doc) =
      [r2] := by
  have hnew2 : ∀ doc ∈ store, key_matches (upsert_key r2) doc = false := by
    intro doc hd; rw [hk]; exact hnew doc hd
  refine ⟨?_, ?_, ?_, ?_⟩
  · simp [save_details_to_mongo, update_one_insert store r hnew]
  · simp [save_details_to_mongo, update_one_modify store r r2 hk hnew hne]
  · rw [List.countP_append]
    have h0 : store.countP (fun doc => key_matches (upsert_key r2) doc) = 0 := by
      rw [List.countP_eq_zero]
      intro doc hd
      simp [hnew2 doc hd]
    rw [h0]
    simp [List.countP_cons, key_matches_upsert_self]
  · rw [List.filter_append]
    have h0 : store.filter (fun doc => key_matches (upsert_key r2) doc) = [] := by
      rw [List.filter_eq_nil_iff]
      intro doc hd
      simp [hnew2 doc hd]
    rw [h0]
    simp [key_matches_upsert_self]

/-- C7 witness: persisting `recA` then `recB` into the empty store keeps
one document, the later one, and each write counts 1. -/
theorem mongo_upsert_idempotent_witness :
    save_details_to_mongo [] [recA] = ([] ++ [recA], 1) ∧
    save_details_to_mongo ([] ++ [recA]) [recB] = ([] ++ [recB], 1) ∧
    ([] ++ [recB]).countP (fun doc => key_matches (upsert_key recB) doc) = 1 ∧
    ([] ++ [recB]).filter (fun doc => key_matches (upsert_key recB) doc) =
      [recB] :=
  mongo_upsert_idempotent [] recA recB (by decide) (by simp) (by decide)

/-- One unfolding step of the retry loop while trials remain. -/
theorem scrape_from_step (u : Candidate) (env : Nat → Page) (t m : Nat)
    (h : t ≤ m) :
    scrape_from u env t m = (match attempt (env t) u with
      | .finish r => r
      | .retry => scrape_from u env (t + 1) m) := by
  rw [scrape_from]
  rw [dif_pos h]

/-- The retry loop past `max_trials` yields no record. -/
theorem scrape_from_stop (u : Candidate) (env : Nat → Page) (t m : Nat)
    (h : ¬t ≤ m) :
    scrape_from u env t m = none := by
  rw [scrape_from]
  rw [dif_neg h]

/-- For a candidate with a truthy url and an empty recent set, the scrape
is the retry loop started at trial 1 of 2. -/
theorem scrape_entry (u : Candidate) (env : Nat → Page)
    (hu : pyTruthy u.url = true) :
    scrape_listing_detail_selenium u [] env = scrape_from u env 1 2 := by
  unfold scrape_listing_detail_selenium
  cases hcu : u.url with
  | none => rw [hcu] at hu; simp [pyTruthy] at hu
  | some s =>
    rw [hcu] at hu
    have hs : s.isEmpty = false := by simpa [pyTruthy] using hu
    simp [hs]

/-- An attempt that sees the block signature, or no content marker and no
auction marker, always ends in a session reset and retry. -/
theorem attempt_retry_of (p : Page) (u : Candidate)
    (h : p.accessDenied = true ∨ (p.flSpanText = none ∧ p.bidMarker = false)) :
    attempt p u = AttemptResult.retry := by
  unfold attempt
  cases hn : p.navError with
  | true => simp
  | false =>
    rcases h with h | ⟨h1, h2⟩
    · simp [h]
    · cases ha : p.accessDenied with
      | true => simp
      | false =>
        have hex : extract_detail_data p u = none := by
          unfold extract_detail_data extract_location
          rw [h1]
          have he : (("" : String).isEmpty) = true := by decide
          simp [he]
        simp [hex, h2]

/-- C3: the per-candidate scrape runs at most `maxAttempts = 2` attempts
(its result depends only on the pages seen by trials 1 and 2); an attempt
that detects the access-denied signature, or whose content marker fails to
appear while no auction marker is recognized, resets the session and
retries the same candidate rather than dropping it; and only after both
attempts fail is the candidate dropped with no record. -/
theorem scraper_retry_discipline (u : Candidate) (env env2 : Nat → Page)
    (hu : pyTruthy u.url = true) :
    ((env 1 = env2 1 ∧ env 2 = env2 2) →
      scrape_listing_detail_selenium u [] env =
        scrape_listing_detail_selenium u [] env2) ∧
    (((env 1).accessDenied = true ∨
        ((env 1).flSpanText = none ∧ (env 1).bidMarker = false)) →
      scrape_listing_detail_selenium u [] env = scrape_from u env 2 2) ∧
    ((attempt (env 1) u = AttemptResult.retry ∧
        attempt (env 2) u = AttemptResult.retry) →
      scrape_listing_detail_selenium u [] env = none) := by
  refine ⟨?_, ?_, ?_⟩
  · rintro ⟨h1, h2⟩
    rw [scrape_entry u env hu, scrape_entry u env2 hu]
    rw [scrape_from_step u env 1 2 (by omega),
        scrape_from_step u env2 1 2 (by omega), h1]
    cases attempt (env2 1) u with
    | finish r => rfl
    | retry =>
      show scrape_from u env 2 2 = scrape_from u env2 2 2
      rw [scrape_from_step u env 2 2 (by omega),
          scrape_from_step u env2 2 2 (by omega), h2]
      cases attempt (env2 2) u with
      | finish r => rfl
      | retry =>
        show scrape_from u env 3 2 = scrape_from u env2 3 2
        rw [scrape_from_stop u env 3 2 (by omega),
            scrape_from_stop u env2 3 2 (by omega)]
  · intro h
    rw [scrape_entry u env hu]
    rw [scrape_from_step u env 1 2 (by omega), attempt_retry_of (env 1) u h]
  · rintro ⟨h1, h2⟩
    rw [scrape_entry u env hu]
    rw [scrape_from_step u env 1 2 (by omega), h1]
    show scrape_from u env 2 2 = none
    rw [scrape_from_step u env 2 2 (by omega), h2]
    show scrape_from u env 3 2 = none
    exact scrape_from_stop u env 3 2 (by omega)

/-- C3 witness: a candidate whose two attempts both hit the block
signature is dropped with no record only after both retries. -/
theorem scraper_retry_discipline_witness :
    scrape_listing_detail_selenium
      { title := "NV Business", url := some "https://example.com/nv-1",
        listing_id := some "123" } [] (fun _ => pageDenied) = none :=
  (scraper_retry_discipline
    { title := "NV Business", url := some "https://example.com/nv-1",
      listing_id := some "123" }
    (fun _ => pageDenied) (fun _ => pageDenied) (by decide)).2.2
    ⟨by decide, by decide⟩

/-- C5 counterexample: both the asking price and the location are present
on `pageBadAI`, yet extraction returns no record, because the malformed
city/state response makes the enrichment fall over (see the C6 bug).  The
claimed "accepted if and only if both present" therefore fails in the
if direction. -/
theorem present_fields_yet_rejected :
    pyTruthy pageBadAI.askingPrice = true ∧
    (extract_location pageBadAI).isEmpty = false ∧
    extract_detail_data pageBadAI candX = none := by decide

/-- C5 (amended): whenever the city/state classification response parses
(it need not be well-typed — a service error also degrades gracefully), a
record is accepted exactly when both the asking price and the location
are present; and when extraction yields no record while the starting-bid
(auction) marker is detected, the absent record is returned to the caller
rather than the attempt being retried. -/
theorem acceptance_rule (p : Page) (u : Candidate)
    (hai : aiLocIsBadJson p.aiLoc = false) :
    ((extract_detail_data p u).isSome =
      (pyTruthy p.askingPrice && !(extract_location p).isEmpty)) ∧
    (p.navError = false → p.accessDenied = false →
      extract_detail_data p u = none → p.bidMarker = true →
      attempt p u = AttemptResult.finish none) := by
  constructor
  · unfold extract_detail_data
    cases hg : (pyTruthy p.askingPrice && !(extract_location p).isEmpty) with
    | false => simp [hg]
    | true =>
      simp only [hg, if_true]
      cases hl : p.aiLoc with
      | svcError => simp [ai_extract_city_and_state]
      | badJson raw => rw [hl] at hai; simp [aiLocIsBadJson] at hai
      | parsed c s => simp [ai_extract_city_and_state]
  · intro hn ha hex hb
    unfold attempt
    simp [hn, ha, hex, hb]

/-- C5 witness: on the well-behaved variant of the page, the acceptance
equation holds with both fields present. -/
theorem acceptance_rule_witness :
    (extract_detail_data pageSvcErr candX).isSome =
      (pyTruthy pageSvcErr.askingPrice &&
        !(extract_location pageSvcErr).isEmpty) :=
  (acceptance_rule pageSvcErr candX (by decide)).1

/-- C6: evaluation of the enrichment at the failing input.  A malformed
(non-JSON) city/state response makes `ai_extract_city_and_state` return
Python `None` (not the empty dict), so the caller's `location.get` raises
and the whole record is rejected — the attempt fails — contradicting the
claim that enrichment failures never reject the record.  The remaining
conjuncts show the recovering paths the claim describes: a service error
degrades to empty city/state, out-of-vocabulary categories are discarded,
and zero surviving tags fall back to the raw category string. -/
theorem enrichment_malformed_rejects_record :
    ai_extract_city_and_state (AILocResult.badJson "oops") = none ∧
    extract_detail_data pageBadAI candX = none ∧
    (extract_detail_data pageSvcErr candX).map (fun r => (r.city, r.state)) =
      some ("", "") ∧
    categorize_listing "Restaurant"
      (AICatResult.parsed ["Restaurants", "Bogus Cat"]) = ["Restaurants"] ∧
    categorize_listing "Pizza Shop" (AICatResult.parsed ["Bogus Cat"]) =
      ["Pizza Shop"] ∧
    categorize_listing "Pizza Shop" (AICatResult.badJson "oops") =
      ["Pizza Shop"] ∧
    categorize_listing "" (AICatResult.badJson "oops") = [] := by decide

/-- The matcher as the conjunction of its five rejection checks. -/
theorem matches_eq_checklist (l : NListing) (mn mx : Option Rat)
    (i s c : List String) :
    listing_matches_subscriber l mn mx i s c =
      (!price_below_min mn l.asking_price &&
       (!price_above_max mx l.asking_price &&
        (!(!i.isEmpty &&
           !(i.any (fun x => (listing_industries l).contains x))) &&
         (!(!s.isEmpty &&
            !(s.any (fun x => (charStrings (pyLower l.state)).contains x))) &&
          !(!c.isEmpty &&
            !(c.any (fun x => (charStrings (pyLower l.city)).contains x))))))) := by
  simp only [listing_matches_subscriber]
  cases price_below_min mn l.asking_price <;>
    cases price_above_max mx l.asking_price <;>
      cases (!i.isEmpty &&
          !(i.any (fun x => (listing_industries l).contains x))) <;>
        cases (!s.isEmpty &&
            !(s.any (fun x => (charStrings (pyLower l.state)).contains x))) <;>
          cases (!c.isEmpty &&
              !(c.any (fun x => (charStrings (pyLower l.city)).contains x))) <;>
            rfl

/-- C8: the matcher is monotone in the constraints.  Weakening a profile
(dropping any of the three set constraints, lowering `DPR_MIN`, raising
`DPR_MAX`, or removing a bound) can only grow the match set: a listing
matched under the stronger profile is matched under the weaker one.
Read in reverse, adding or tightening a constraint never adds a
listing. -/
theorem matching_monotone (l : NListing) (minS maxS : Option Rat)
    (iS sS cS : List String) (minW maxW : Option Rat)
    (iW sW cW : List String)
    (hmin : minW = none ∨ ∃ a b, minW = some a ∧ minS = some b ∧ a ≤ b)
    (hmax : maxW = none ∨ ∃ a b, maxW = some a ∧ maxS = some b ∧ b ≤ a)
    (hind : iW = [] ∨ iW = iS)
    (hst : sW = [] ∨ sW = sS)
    (hct : cW = [] ∨ cW = cS)
    (h : listing_matches_subscriber l minS maxS iS sS cS = true) :
    listing_matches_subscriber l minW maxW iW sW cW = true := by
  rw [matches_eq_checklist] at h ⊢
  simp only [Bool.and_eq_true, Bool.not_eq_true'] at h ⊢
  obtain ⟨h1, h2, h3, h4, h5⟩ := h
  refine ⟨?_, ?_, ?_, ?_, ?_⟩
  · rcases hmin with hm | ⟨a, b, ha, hb, hab⟩
    · subst hm; cases l.asking_price <;> rfl
    · subst ha
      rw [hb] at h1
      cases hp : l.asking_price with
      | none => rfl
      | some p =>
        rw [hp] at h1
        unfold price_below_min at h1 ⊢
        simp only [decide_eq_false_iff_not, not_lt] at h1 ⊢
        exact le_trans hab h1
  · rcases hmax with hm | ⟨a, b, ha, hb, hab⟩
    · subst hm; cases l.asking_price <;> rfl
    · subst ha
      rw [hb] at h2
      cases hp : l.asking_price with
      | none => rfl
      | some p =>
        rw [hp] at h2
        unfold price_above_max at h2 ⊢
        simp only [gt_iff_lt, decide_eq_false_iff_not, not_lt] at h2 ⊢
        exact le_trans h2 hab
  · rcases hind with hi | hi
    · subst hi; simp
    · subst hi; exact h3
  · rcases hst with hs | hs
    · subst hs; simp
    · subst hs; exact h4
  · rcases hct with hc | hc
    · subst hc; simp
    · subst hc; exact h5

/-- C8 witness: the Nevada listing with price 500000 matches under a
profile with min 100000 and max 900000, so it also matches after dropping
the state set and loosening the bounds to min 50000 and no max. -/
theorem matching_monotone_witness :
    listing_matches_subscriber
      { asking_price := some 500000, category := ["restaurants"],
        state := "Nevada", city := "Las Vegas",
        url := some "https://example.com/nv-1", title := "NV Business" }
      (some 50000) none [] [] [] = true :=
  matching_monotone
    { asking_price := some 500000, category := ["restaurants"],
      state := "Nevada", city := "Las Vegas",
      url := some "https://example.com/nv-1", title := "NV Business" }
    (some 100000) (some 900000) [] ["n"] [] (some 50000) none [] [] []
    (Or.inr ⟨50000, 100000, rfl, rfl, by norm_num⟩)
    (Or.inl rfl) (Or.inl rfl) (Or.inl rfl) (Or.inl rfl) (by decide)

/-- `lexLeChars` is total. -/
theorem lexLeChars_total (as : List Char) : ∀ bs,
    lexLeChars as bs = true ∨ lexLeChars bs as = true := by
  induction as with
  | nil => intro bs; left; rfl
  | cons a at2 ih =>
    intro bs
    cases bs with
    | nil => right; rfl
    | cons b bt =>
      unfold lexLeChars
      rcases Nat.lt_trichotomy a.toNat b.toNat with h | h | h
      · left; simp [h]
      · have hab : ¬a.toNat < b.toNat := by omega
        have hba : ¬b.toNat < a.toNat := by omega
        rcases ih bt with h2 | h2
        · left; simp [hab, hba, h2]
        · right; simp [hab, hba, h2]
      · right; simp [h]

/-- `lexLeChars` is transitive. -/
theorem lexLeChars_trans (as : List Char) : ∀ bs cs,
    lexLeChars as bs = true → lexLeChars bs cs = true →
    lexLeChars as cs = true := by
  induction as with
  | nil => intro bs cs h1 h2; rfl
  | cons a at2 ih =>
    intro bs cs h1 h2
    cases bs with
    | nil => simp [lexLeChars] at h1
    | cons b bt =>
      cases cs with
      | nil => simp [lexLeChars] at h2
      | cons c ct =>
        unfold lexLeChars at h1 h2 ⊢
        by_cases hab : a.toNat < b.toNat
        · by_cases hbc : b.toNat < c.toNat
          · simp [show a.toNat < c.toNat by omega]
          · by_cases hcb : c.toNat < b.toNat
            · simp [hbc, hcb] at h2
            · simp [show a.toNat < c.toNat by omega]
        · by_cases hba : b.toNat < a.toNat
          · simp [hab, hba] at h1
          · have h1r : lexLeChars at2 bt = true := by simpa [hab, hba] using h1
            by_cases hbc : b.toNat < c.toNat
            · simp [show a.toNat < c.toNat by omega]
            · by_cases hcb : c.toNat < b.toNat
              · simp [hbc, hcb] at h2
              · have h2r : lexLeChars bt ct = true := by simpa [hbc, hcb] using h2
                have hac : ¬a.toNat < c.toNat := by omega
                have hca : ¬c.toNat < a.toNat := by omega
                simp [hac, hca, ih bt ct h1r h2r]

/-- `lexLeChars` is antisymmetric. -/
theorem lexLeChars_antisymm (as : List Char) : ∀ bs,
    lexLeChars as bs = true → lexLeChars bs as = true → as = bs := by
  induction as with
  | nil =>
    intro bs h1 h2
    cases bs with
    | nil => rfl
    | cons b bt => simp [lexLeChars] at h2
  | cons a at2 ih =>
    intro bs h1 h2
    cases bs with
    | nil => simp [lexLeChars] at h1
    | cons b bt =>
      unfold lexLeChars at h1 h2
      by_cases hab : a.toNat < b.toNat
      · have hba : ¬b.toNat < a.toNat := by omega
        simp [hba, hab] at h2
      · by_cases hba : b.toNat < a.toNat
        · simp [hab, hba] at h1
        · have hchar : a = b := by
            have ht : a.toNat = b.toNat := by omega
            have h1c := Char.ofNat_toNat a
            rw [ht] at h1c
            rw [← h1c, Char.ofNat_toNat b]
          have h1r : lexLeChars at2 bt = true := by simpa [hab, hba] using h1
          have h2r : lexLeChars bt at2 = true := by simpa [hab, hba] using h2
          rw [hchar, ih bt h1r h2r]

instance : IsTotal String (fun a b => pyStrLe a b = true) :=
  ⟨fun a b => lexLeChars_total a.data b.data⟩

instance : IsTrans String (fun a b => pyStrLe a b = true) :=
  ⟨fun a b c => lexLeChars_trans a.data b.data c.data⟩

instance : IsAntisymm String (fun a b => pyStrLe a b = true) :=
  ⟨fun a b h1 h2 => by
    have h := lexLeChars_antisymm a.data b.data h1 h2
    cases a; cases b; exact congrArg String.mk h⟩

/-- Python sorted is determined by the multiset of inputs. -/
theorem pySorted_eq_of_perm (l1 l2 : List String) (h : l1.Perm l2) :
    pySorted l1 = pySorted l2 :=
  List.eq_of_perm_of_sorted
    ((List.perm_insertionSort _ l1).trans
      (h.trans (List.perm_insertionSort _ l2).symm))
    (List.sorted_insertionSort _ l1) (List.sorted_insertionSort _ l2)

/-- The listings hash only depends on the multiset of identifiers. -/
theorem create_listings_hash_perm (ls1 ls2 : List NListing)
    (h : (ls1.map listingIdent).Perm (ls2.map listingIdent)) :
    create_listings_hash ls1 = create_listings_hash ls2 := by
  unfold create_listings_hash
  rw [pySorted_eq_of_perm _ _ h]

/-- C4 counterexample: the matched sets `[pipeListing]` and
`[aListing, bListing]` differ (the first holds a listing the second does
not), yet both produce the joined identifier string `a|b` and therefore
the same groupKey — the claimed injectivity over distinct matched sets
fails. -/
theorem groupkey_collision :
    create_listings_hash [pipeListing] =
      create_listings_hash [aListing, bListing] ∧
    pipeListing ∉ [aListing, bListing] ∧
    ([pipeListing] : List NListing) ≠ [aListing, bListing] := by
  refine ⟨?_, by decide, by decide⟩
  have h1 : joinPipe (pySorted ([pipeListing].map listingIdent)) = "a|b" := by
    decide
  have h2 : joinPipe (pySorted ([aListing, bListing].map listingIdent)) =
      "a|b" := by decide
  unfold create_listings_hash
  rw [h1, h2]

/-- An entry already grouped stays grouped (same key, emails preserved)
after one more grouping step. -/
theorem group_step_preserves (gs : List MatchGroup)
    (p : String × List NListing) (g : MatchGroup) (hg : g ∈ gs) (e : String)
    (he : e ∈ g.2.1) :
    ∃ g2 ∈ group_step gs p, g2.1 = g.1 ∧ e ∈ g2.2.1 := by
  unfold group_step
  cases hc : gs.any (fun g => g.1 == create_listings_hash p.2) with
  | true =>
    simp only [hc, if_true]
    by_cases hk : (g.1 == create_listings_hash p.2) = true
    · exact ⟨(g.1, g.2.1 ++ [p.1], g.2.2),
        List.mem_map.mpr ⟨g, hg, by simp [hk]⟩, rfl, by simp [he]⟩
    · exact ⟨g, List.mem_map.mpr ⟨g, hg, by simp [hk]⟩, rfl, he⟩
  | false =>
    simp only [hc]
    exact ⟨g, by simp [List.mem_append, hg], rfl, he⟩

/-- One grouping step files the processed email under its listings hash. -/
theorem group_step_adds (gs : List MatchGroup) (p : String × List NListing) :
    ∃ g ∈ group_step gs p, g.1 = create_listings_hash p.2 ∧ p.1 ∈ g.2.1 := by
  unfold group_step
  cases hc : gs.any (fun g => g.1 == create_listings_hash p.2) with
  | false =>
    simp only [hc]
    exact ⟨(create_listings_hash p.2, ([p.1], p.2)), by simp, rfl, by simp⟩
  | true =>
    simp only [hc, if_true]
    obtain ⟨g, hg, hkey⟩ := List.any_eq_true.mp hc
    refine ⟨(g.1, g.2.1 ++ [p.1], g.2.2),
      List.mem_map.mpr ⟨g, hg, by simp [hkey]⟩, ?_, by simp⟩
    exact eq_of_beq hkey

/-- One grouping step keeps the group keys duplicate-free. -/
theorem group_step_keys_nodup (gs : List MatchGroup)
    (p : String × List NListing)
    (h : (gs.map (fun g => g.1)).Nodup) :
    ((group_step gs p).map (fun g => g.1)).Nodup := by
  cases hc : gs.any (fun g => g.1 == create_listings_hash p.2) with
  | true =>
    have hstep : group_step gs p = gs.map (fun g =>
        if (g.1 == create_listings_hash p.2) = true then
          (g.1, g.2.1 ++ [p.1], g.2.2) else g) := by
      unfold group_step
      simp only [hc, if_true]
    have hkeys : ((fun (g : MatchGroup) => g.1) ∘ fun (g : MatchGroup) =>
        if (g.1 == create_listings_hash p.2) = true then
          (g.1, g.2.1 ++ [p.1], g.2.2) else g) =
        fun (g : MatchGroup) => g.1 := by
      funext g
      simp only [Function.comp_apply]
      split <;> rfl
    rw [hstep, List.map_map, hkeys]
    exact h
  | false =>
    have hstep : group_step gs p =
        gs ++ [(create_listings_hash p.2, ([p.1], p.2))] := by
      unfold group_step
      simp only [hc]
      simp
    rw [hstep, List.map_append, List.nodup_append]
    refine ⟨h, by simp, ?_⟩
    intro x hx hx2
    simp only [List.map_cons, List.map_nil, List.mem_cons,
      List.not_mem_nil, or_false] at hx2
    subst hx2
    obtain ⟨g, hg, hgx⟩ := List.mem_map.mp hx
    have hfalse := List.any_eq_false.mp hc g hg
    rw [hgx] at hfalse
    simp at hfalse

/-- Folding the grouping step files every processed entry (and keeps
everything already filed) under its listings hash. -/
theorem group_fold_mem (ms : List (String × List NListing)) :
    ∀ (acc : List MatchGroup) (e : String) (ls : List NListing),
    ((e, ls) ∈ ms ∨ ∃ g ∈ acc, g.1 = create_listings_hash ls ∧ e ∈ g.2.1) →
    ∃ g ∈ ms.foldl group_step acc,
      g.1 = create_listings_hash ls ∧ e ∈ g.2.1 := by
  induction ms with
  | nil =>
    intro acc e ls h
    rcases h with h | h
    · cases h
    · simpa using h
  | cons p rest ih =>
    intro acc e ls h
    rw [List.foldl_cons]
    apply ih
    rcases h with h | ⟨g, hg, hk, he⟩
    · rcases List.mem_cons.mp h with h | h
      · right
        obtain ⟨g, hg, hk, hm⟩ := group_step_adds acc p
        cases h
        exact ⟨g, hg, hk, hm⟩
      · left; exact h
    · right
      obtain ⟨g2, hg2, hk2, he2⟩ := group_step_preserves acc p g hg e he
      exact ⟨g2, hg2, by rw [hk2, hk], he2⟩

/-- Folding the grouping step from duplicate-free keys keeps the keys
duplicate-free. -/
theorem group_fold_keys_nodup (ms : List (String × List NListing)) :
    ∀ acc : List MatchGroup, (acc.map (fun g => g.1)).Nodup →
    ((ms.foldl group_step acc).map (fun g => g.1)).Nodup := by
  induction ms with
  | nil => intro acc h; simpa using h
  | cons p rest ih =>
    intro acc h
    rw [List.foldl_cons]
    exact ih _ (group_step_keys_nodup acc p h)

/-- In a list with duplicate-free keys, two members with the same key are
the same member. -/
theorem mem_same_key_eq (gs : List MatchGroup)
    (h : (gs.map (fun g => g.1)).Nodup) (g1 g2 : MatchGroup)
    (h1 : g1 ∈ gs) (h2 : g2 ∈ gs) (hk : g1.1 = g2.1) : g1 = g2 := by
  induction gs with
  | nil => cases h1
  | cons g rest ih =>
    rw [List.map_cons, List.nodup_cons] at h
    obtain ⟨hhd, htl⟩ := h
    rcases List.mem_cons.mp h1 with e1 | m1 <;>
      rcases List.mem_cons.mp h2 with e2 | m2
    · rw [e1, e2]
    · exfalso
      apply hhd
      have hgk : g.1 = g2.1 := by rw [← e1]; exact hk
      rw [hgk]
      exact List.mem_map.mpr ⟨g2, m2, rfl⟩
    · exfalso
      apply hhd
      have hgk : g.1 = g1.1 := by rw [← e2]; exact hk.symm
      rw [hgk]
      exact List.mem_map.mpr ⟨g1, m1, rfl⟩
    · exact ih htl m1 m2

/-- C4 (amended): the groupKey is a pure, order-independent function of
the multiset of matched-listing identifiers — subscribers with
permutation-equal identifier lists get the same key and are filed in the
same group — but it is not injective on matched-listing sets: distinct
sets can share a key (see the counterexample: identifiers are joined with
a pipe before hashing, so `a|b` collides with `a`, `b`; the digest is
also truncated to 8 hex characters). -/
theorem groupkey_multiset_determinism :
    (∀ ls1 ls2 : List NListing,
      (ls1.map listingIdent).Perm (ls2.map listingIdent) →
      create_listings_hash ls1 = create_listings_hash ls2) ∧
    (∀ (m : List (String × List NListing)) (e1 e2 : String)
      (ls1 ls2 : List NListing),
      (e1, ls1) ∈ m → (e2, ls2) ∈ m →
      (ls1.map listingIdent).Perm (ls2.map listingIdent) →
      ∃ g ∈ group_subscribers_by_matches m, e1 ∈ g.2.1 ∧ e2 ∈ g.2.1) := by
  constructor
  · exact create_listings_hash_perm
  · intro m e1 e2 ls1 ls2 h1 h2 hp
    obtain ⟨g1, hg1, hk1, he1⟩ := group_fold_mem m [] e1 ls1 (Or.inl h1)
    obtain ⟨g2, hg2, hk2, he2⟩ := group_fold_mem m [] e2 ls2 (Or.inl h2)
    have hnodup := group_fold_keys_nodup m [] (by simp)
    have hkeq : g1.1 = g2.1 := by
      rw [hk1, hk2, create_listings_hash_perm ls1 ls2 hp]
    have hgeq := mem_same_key_eq _ hnodup g1 g2 hg1 hg2 hkeq
    exact ⟨g1, hg1, he1, hgeq ▸ he2⟩

/-- C4 witness: two subscribers matched to the same two listings in
opposite orders are filed in one shared group. -/
theorem groupkey_multiset_determinism_witness :
    ∃ g ∈ group_subscribers_by_matches
      [("a@example.com", [aListing, bListing]),
       ("b@example.com", [bListing, aListing])],
      "a@example.com" ∈ g.2.1 ∧ "b@example.com" ∈ g.2.1 :=
  groupkey_multiset_determinism.2
    [("a@example.com", [aListing, bListing]),
     ("b@example.com", [bListing, aListing])]
    "a@example.com" "b@example.com" [aListing, bListing]
    [bListing, aListing] (by simp) (by simp)
    (by
      have ha : List.map listingIdent [aListing, bListing] = ["a", "b"] := by
        decide
      have hb : List.map listingIdent [bListing, aListing] = ["b", "a"] := by
        decide
      rw [ha, hb]
      exact List.Perm.swap "b" "a" [])

end BizBuySell
